import Mathlib

/-!
Shallow embedding of the GenDocs invoicing application (src/index.tsx) and
verification of its specification claims.

Modelling conventions:
- JavaScript numbers are modelled as rationals.
- Identifier generation (Date.now, Math.random) is modelled by explicitly
  supplied identifier parameters or oracles.
- The browser localStorage is modelled as a partial map from keys to strings;
  JSON.parse and JSON.stringify of the host are modelled as oracle functions,
  with their relevant properties stated as hypotheses.
- A JavaScript value produced by JSON.parse is modelled by the inductive Json.
-/

/-- Customer entity, from the Customer interface in src/index.tsx. -/
structure Customer where
  id : String
  name : String
  email : String
  address : String
deriving DecidableEq, Repr

/-- Line item entity, from the LineItem interface in src/index.tsx. -/
structure LineItem where
  id : String
  description : String
  quantity : ℚ
  unitPrice : ℚ
deriving DecidableEq, Repr

/-- Document type, from the DocumentType union in src/index.tsx. -/
inductive DocumentType where
  | Invoice : DocumentType
  | Quotation : DocumentType
deriving DecidableEq, Repr

/-- Document entity, from the Document interface in src/index.tsx. -/
structure Document where
  id : String
  customerId : String
  type : DocumentType
  date : String
  lineItems : List LineItem
deriving DecidableEq, Repr

/-- Line total of a single item, the expression item.quantity * item.unitPrice
appearing in calculateTotal, in the total memo and in the table row of
src/index.tsx. -/
def lineTotal (item : LineItem) : ℚ := item.quantity * item.unitPrice

/-- Document total, from calculateTotal in the Dashboard component and the
total memo of the DocumentCreator component of src/index.tsx; both reduce
with initial accumulator 0. -/
def calculateTotal (lineItems : List LineItem) : ℚ :=
  lineItems.foldl (fun acc item => acc + item.quantity * item.unitPrice) 0

/-- Identifiers of a sequence of line items. -/
def ids (items : List LineItem) : List String := items.map LineItem.id

/-- Customer creation, from handleSubmit in the CustomerManager component of
src/index.tsx. The freshId parameter models the generated identifier
Date.now().toString(). A falsy name or email (the empty string) aborts the
operation silently. -/
def handleSubmit (name email address : String) (freshId : String)
    (customers : List Customer) : List Customer :=
  if name = "" ∨ email = "" then customers
  else customers ++ [{ id := freshId, name := name, email := email, address := address }]

/-- Result of the saveDocument operation: the documents collection, the active
view and whether a blocking user-visible message was raised. -/
structure SaveResult where
  documents : List Document
  activeView : String
  alerted : Bool
deriving DecidableEq, Repr

/-- Document saving, from saveDocument in the DocumentCreator component of
src/index.tsx. The freshId and now parameters model Date.now().toString() and
new Date().toISOString(). A falsy customerId (the empty string) or an empty
lineItems sequence raises an alert and changes nothing; otherwise the new
document is appended and the active view becomes the dashboard. -/
def saveDocument (customerId : String) (ty : DocumentType)
    (lineItems : List LineItem) (docs : List Document) (activeView : String)
    (freshId now : String) : SaveResult :=
  if customerId = "" ∨ lineItems = [] then
    { documents := docs, activeView := activeView, alerted := true }
  else
    { documents := docs ++ [{ id := freshId, customerId := customerId, type := ty,
                              date := now, lineItems := lineItems }],
      activeView := "dashboard", alerted := false }

/-- Helper: folding the line totals from any accumulator equals the
accumulator plus the sum of the line totals. -/
theorem foldl_lineTotal (l : List LineItem) :
    ∀ a : ℚ, l.foldl (fun acc item => acc + item.quantity * item.unitPrice) a
      = a + (l.map lineTotal).sum := by
  induction l with
  | nil => intro a; simp
  | cons x xs ih =>
      intro a
      simp only [List.foldl_cons, List.map_cons, List.sum_cons, ih, lineTotal]
      ring

/-- C1: every line total equals quantity times unitPrice, and the document
total equals the sum of quantity times unitPrice over the line items, with 0
for the empty sequence; quantities and prices range over all rationals,
including zero and fractional values. -/
theorem claim_lineTotal_documentTotal (item : LineItem) (items : List LineItem) :
    lineTotal item = item.quantity * item.unitPrice ∧
    calculateTotal items = (items.map lineTotal).sum ∧
    calculateTotal [] = 0 := by
  refine ⟨rfl, ?_, rfl⟩
  unfold calculateTotal
  rw [foldl_lineTotal]
  ring

/-- C5: addCustomer leaves the customers collection unchanged when name or
email is empty; otherwise it appends exactly one new customer with the given
fresh identifier, name, email and address, keeping all previous customers in
order. -/
theorem claim_addCustomer (name email address freshId : String)
    (customers : List Customer) :
    ((name = "" ∨ email = "") →
      handleSubmit name email address freshId customers = customers) ∧
    (name ≠ "" → email ≠ "" →
      handleSubmit name email address freshId customers =
        customers ++ [{ id := freshId, name := name, email := email, address := address }]) := by
  constructor
  · intro h
    unfold handleSubmit
    simp [h]
  · intro hn he
    unfold handleSubmit
    simp [hn, he]

/-- Witness for C5: the spec example with empty name leaves the collection
unchanged, and a valid customer is appended. -/
theorem claim_addCustomer_witness :
    handleSubmit "" "a@b.com" "" "1" [] = [] ∧
    handleSubmit "Ann" "a@b.com" "addr" "1" [] =
      [{ id := "1", name := "Ann", email := "a@b.com", address := "addr" }] :=
  ⟨(claim_addCustomer "" "a@b.com" "" "1" []).1 (Or.inl rfl),
   (claim_addCustomer "Ann" "a@b.com" "addr" "1" []).2 (by decide) (by decide)⟩

/-- C2: saveDocument alerts and changes no state when customerId is empty or
lineItems is empty; otherwise it appends exactly one document carrying the
draft type, customerId and lineItems together with the fresh identifier and
timestamp, and switches the active view to the dashboard. -/
theorem claim_saveDocument (cid : String) (ty : DocumentType)
    (items : List LineItem) (docs : List Document) (view fid now : String) :
    ((cid = "" ∨ items = []) →
      saveDocument cid ty items docs view fid now =
        { documents := docs, activeView := view, alerted := true }) ∧
    (cid ≠ "" → items ≠ [] →
      saveDocument cid ty items docs view fid now =
        { documents := docs ++ [{ id := fid, customerId := cid, type := ty,
                                  date := now, lineItems := items }],
          activeView := "dashboard", alerted := false }) := by
  constructor
  · intro h
    unfold saveDocument
    simp [h]
  · intro hc hi
    unfold saveDocument
    simp [hc, hi]

/-- Witness for C2: the rejected empty draft and the saved one-item draft from
the specification examples. -/
theorem claim_saveDocument_witness :
    saveDocument "" DocumentType.Invoice [] [] "creator" "7" "t0" =
      { documents := [], activeView := "creator", alerted := true } ∧
    saveDocument "c1" DocumentType.Invoice
        [{ id := "a", description := "X", quantity := 1, unitPrice := 100 }]
        [] "creator" "7" "t0" =
      { documents := [{ id := "7", customerId := "c1", type := DocumentType.Invoice,
                        date := "t0",
                        lineItems := [{ id := "a", description := "X",
                                        quantity := 1, unitPrice := 100 }] }],
        activeView := "dashboard", alerted := false } :=
  ⟨(claim_saveDocument "" DocumentType.Invoice [] [] "creator" "7" "t0").1 (Or.inl rfl),
   (claim_saveDocument "c1" DocumentType.Invoice
      [{ id := "a", description := "X", quantity := 1, unitPrice := 100 }]
      [] "creator" "7" "t0").2 (by decide) (by decide)⟩

/-- JavaScript value as produced by JSON.parse, for modelling the storage
container and the AI response handling. -/
inductive Json where
  | null : Json
  | bool (b : Bool) : Json
  | num (q : ℚ) : Json
  | str (s : String) : Json
  | arr (elems : List Json) : Json
  | obj (fields : List (String × Json)) : Json

/-- Property access on a JavaScript value: defined only on objects; on other
non-null values it yields undefined, modelled as none. Access on null throws
and is handled separately at the use site. -/
def Json.getField : Json → String → Option Json
  | .obj fields, key => fields.lookup key
  | _, _ => none

/-- JavaScript truthiness of a value. -/
def Json.truthy : Json → Bool
  | .null => false
  | .bool b => b
  | .num q => decide (q ≠ 0)
  | .str s => decide (s ≠ "")
  | .arr _ => true
  | .obj _ => true

def Json.isNull : Json → Bool
  | .null => true
  | _ => false

def Json.getStr : Json → Option String
  | .str s => some s
  | _ => none

def Json.getNum : Json → Option ℚ
  | .num q => some q
  | _ => none

/-- Storage read, from the useState initializer of useLocalStorage in
src/index.tsx: fetch the string under key; a missing key or an empty stored
string is falsy and yields initialValue; otherwise the string is parsed, and
a parse failure (JSON.parse throwing, caught by the surrounding try) also
yields initialValue. The parse oracle models the host JSON.parse. -/
def localStorageRead (getItem : String → Option String)
    (parse : String → Option Json) (key : String) (initialValue : Json) : Json :=
  match getItem key with
  | none => initialValue
  | some s =>
      if s = "" then initialValue
      else match parse s with
        | some v => v
        | none => initialValue

/-- Storage write, from setValue of useLocalStorage in src/index.tsx: the
serialized value is stored under key, other keys are untouched. The stringify
oracle models the host JSON.stringify. -/
def localStorageWrite (store : String → Option String) (stringify : Json → String)
    (key : String) (value : Json) : String → Option String :=
  fun k => if k = key then some (stringify value) else store k

/-- Editable field of a line item, the keyof Omit LineItem id type in
src/index.tsx. -/
inductive ItemField where
  | description : ItemField
  | quantity : ItemField
  | unitPrice : ItemField
deriving DecidableEq, Repr

/-- Value type carried by each editable field. -/
@[reducible]
def ItemField.valType : ItemField → Type
  | .description => String
  | .quantity => ℚ
  | .unitPrice => ℚ

/-- Computed-property update of one field, the object spread with a computed
key in updateLineItem of src/index.tsx. -/
def setField (item : LineItem) : (f : ItemField) → f.valType → LineItem
  | .description, v => { item with description := v }
  | .quantity, v => { item with quantity := v }
  | .unitPrice, v => { item with unitPrice := v }

/-- Read one editable field of a line item. -/
def getFieldVal (item : LineItem) : (f : ItemField) → f.valType
  | .description => item.description
  | .quantity => item.quantity
  | .unitPrice => item.unitPrice

/-- Line item field update, from updateLineItem in the DocumentCreator
component of src/index.tsx: map over the sequence, replacing the named field
of items whose identifier matches. -/
def updateLineItem (id : String) (f : ItemField) (v : f.valType)
    (prev : List LineItem) : List LineItem :=
  prev.map (fun item => if item.id = id then setField item f v else item)

/-- Line item insertion, from addLineItem in src/index.tsx; freshId models
Date.now().toString(). -/
def addLineItem (freshId : String) (prev : List LineItem) : List LineItem :=
  prev ++ [{ id := freshId, description := "", quantity := 1, unitPrice := 0 }]

/-- Line item removal, from removeLineItem in src/index.tsx. -/
def removeLineItem (id : String) (prev : List LineItem) : List LineItem :=
  prev.filter (fun item => item.id ≠ id)

/-- Outcome of the generateContent call followed by JSON.parse in
handleGenerateWithAI of src/index.tsx: error covers a rejected request
(network failure) and a response text on which JSON.parse throws; parsed
carries the parsed JavaScript value. -/
inductive AIResult where
  | error : AIResult
  | parsed (j : Json) : AIResult

/-- Object spread of a parsed item with a generated id, the arrow function
inside result.lineItems.map in src/index.tsx. A field that is absent or not of
the schema type is modelled by the default value of the field type; for
schema-conforming items the translation is exact. -/
def mkItem (newId : String) (x : Json) : LineItem :=
  { id := newId,
    description := ((x.getField "description").bind Json.getStr).getD "",
    quantity := ((x.getField "quantity").bind Json.getNum).getD 0,
    unitPrice := ((x.getField "unitPrice").bind Json.getNum).getD 0 }

/-- Image of result.lineItems.map: each invocation of the arrow function draws
a fresh identifier from the genId oracle, indexed by call order. -/
def mapWithIds (genId : ℕ → String) : ℕ → List Json → List LineItem
  | _, [] => []
  | k, x :: xs => mkItem (genId k) x :: mapWithIds genId (k + 1) xs

/-- Observable outcome of one handleGenerateWithAI run. -/
structure GenResult where
  requested : Bool
  lineItems : List LineItem
  alerted : Bool
  sawLoading : Bool
  isLoading : Bool
deriving Repr

/-- AI generation handler, from handleGenerateWithAI in src/index.tsx. An
empty (falsy) prompt returns before any request; otherwise isLoading is set,
the request is made, and the branches follow the source: a thrown error
(network, unparseable response, property access on a parsed null, or calling
map on a truthy non-array lineItems value) is caught and alerts; a parsed
value whose lineItems member is absent or falsy is skipped silently; a parsed
array replaces the line items, each element spread together with a freshly
generated identifier. The finally clause clears isLoading in every branch. -/
def handleGenerateWithAI (aiPrompt : String) (prev : List LineItem)
    (res : AIResult) (genId : ℕ → String) : GenResult :=
  if aiPrompt = "" then
    { requested := false, lineItems := prev, alerted := false,
      sawLoading := false, isLoading := false }
  else
    match res with
    | .error =>
        { requested := true, lineItems := prev, alerted := true,
          sawLoading := true, isLoading := false }
    | .parsed j =>
        if j.isNull then
          { requested := true, lineItems := prev, alerted := true,
            sawLoading := true, isLoading := false }
        else
          match j.getField "lineItems" with
          | none =>
              { requested := true, lineItems := prev, alerted := false,
                sawLoading := true, isLoading := false }
          | some v =>
              if v.truthy then
                match v with
                | .arr xs =>
                    { requested := true, lineItems := mapWithIds genId 0 xs,
                      alerted := false, sawLoading := true, isLoading := false }
                | _ =>
                    { requested := true, lineItems := prev, alerted := true,
                      sawLoading := true, isLoading := false }
              else
                { requested := true, lineItems := prev, alerted := false,
                  sawLoading := true, isLoading := false }

/-- Schema-conforming line item record as returned by the AI Draft Generator,
before an identifier is assigned. -/
structure RawItem where
  description : String
  quantity : ℚ
  unitPrice : ℚ
deriving DecidableEq, Repr

/-- JSON encoding of a schema-conforming item record. -/
def encodeItem (r : RawItem) : Json :=
  Json.obj [("description", Json.str r.description),
            ("quantity", Json.num r.quantity),
            ("unitPrice", Json.num r.unitPrice)]

/-- Draft editing operation of the DocumentCreator component. -/
inductive DraftOp where
  | add (freshId : String) : DraftOp
  | remove (id : String) : DraftOp
  | update (id : String) (f : ItemField) (v : f.valType) : DraftOp
  | gen (prompt : String) (res : AIResult) (genId : ℕ → String) : DraftOp

/-- Effect of one draft operation on the draft line items. -/
def applyOp (s : List LineItem) : DraftOp → List LineItem
  | .add freshId => addLineItem freshId s
  | .remove i => removeLineItem i s
  | .update i f v => updateLineItem i f v s
  | .gen prompt res genId => (handleGenerateWithAI prompt s res genId).lineItems

/-- Freshness of the identifiers drawn by one operation: an added item has an
identifier not already present, and a generation step produces pairwise
distinct identifiers (the idealisation of Date.now plus Math.random that the
specification assumes). -/
def freshOK (s : List LineItem) : DraftOp → Bool
  | .add freshId => decide (freshId ∉ ids s)
  | .remove _ => true
  | .update _ _ _ => true
  | .gen prompt res genId =>
      decide (ids (handleGenerateWithAI prompt s res genId).lineItems).Nodup

/-- Running a sequence of draft operations. -/
def runOps (s : List LineItem) : List DraftOp → List LineItem
  | [] => s
  | op :: ops => runOps (applyOp s op) ops

/-- Freshness along a whole run. -/
def freshRun (s : List LineItem) : List DraftOp → Bool
  | [] => true
  | op :: ops => freshOK s op && freshRun (applyOp s op) ops

/-- C6: the storage read returns the parsed stored value when one exists and
parses, and returns initialValue, without throwing, when the key is absent or
the stored string fails to parse. The hypothesis records that the host
JSON.parse rejects the empty string, which the code treats as falsy. -/
theorem claim_storageRead (getItem : String → Option String)
    (parse : String → Option Json) (key : String) (init : Json)
    (hp : parse "" = none) :
    (getItem key = none → localStorageRead getItem parse key init = init) ∧
    (∀ s, getItem key = some s → parse s = none →
      localStorageRead getItem parse key init = init) ∧
    (∀ s v, getItem key = some s → parse s = some v →
      localStorageRead getItem parse key init = v) := by
  refine ⟨?_, ?_, ?_⟩
  · intro h
    unfold localStorageRead
    rw [h]
  · intro s hs hpf
    unfold localStorageRead
    rw [hs]
    by_cases he : s = ""
    · simp [he]
    · simp [he, hpf]
  · intro s v hs hpv
    unfold localStorageRead
    rw [hs]
    by_cases he : s = ""
    · rw [he] at hpv
      rw [hp] at hpv
      exact absurd hpv (by simp)
    · simp [he, hpv]

/-- Witness for C6: a concrete store holding a serialized empty array under
the customers key, a missing key, and a corrupt entry. -/
theorem claim_storageRead_witness :
    localStorageRead
      (fun k => if k = "gendocs_customers" then some "[]" else none)
      (fun s => if s = "[]" then some (Json.arr []) else none)
      "gendocs_customers" Json.null = Json.arr [] ∧
    localStorageRead
      (fun k => if k = "gendocs_customers" then some "[]" else none)
      (fun s => if s = "[]" then some (Json.arr []) else none)
      "gendocs_documents" Json.null = Json.null ∧
    localStorageRead
      (fun _ => some "corrupt")
      (fun s => if s = "[]" then some (Json.arr []) else none)
      "gendocs_customers" Json.null = Json.null :=
  ⟨(claim_storageRead _ _ "gendocs_customers" Json.null rfl).2.2 "[]" (Json.arr [])
      rfl rfl,
   (claim_storageRead _ _ "gendocs_documents" Json.null rfl).1 rfl,
   (claim_storageRead _ _ "gendocs_customers" Json.null rfl).2.1 "corrupt" rfl rfl⟩

/-- C7: writing a value under a key through the storage container and reading
the key back yields the value, for any serializer and parser pair that
round-trips the value to a non-empty string, as the host JSON.stringify and
JSON.parse do for every JSON-representable collection. -/
theorem claim_storageRoundTrip (store : String → Option String)
    (stringify : Json → String) (parse : String → Option Json)
    (key : String) (v init : Json)
    (h1 : parse (stringify v) = some v) (h2 : stringify v ≠ "") :
    localStorageRead (localStorageWrite store stringify key v) parse key init = v := by
  unfold localStorageRead localStorageWrite
  rw [if_pos rfl]
  simp only []
  rw [if_neg h2, h1]

/-- Witness for C7: a concrete one-element customers collection written and
read back under the customers key. -/
theorem claim_storageRoundTrip_witness :
    localStorageRead
      (localStorageWrite (fun _ => none) (fun _ => "[c]") "gendocs_customers"
        (Json.arr [Json.str "c"]))
      (fun s => if s = "[c]" then some (Json.arr [Json.str "c"]) else none)
      "gendocs_customers" Json.null = Json.arr [Json.str "c"] :=
  claim_storageRoundTrip (fun _ => none) (fun _ => "[c]")
    (fun s => if s = "[c]" then some (Json.arr [Json.str "c"]) else none)
    "gendocs_customers" (Json.arr [Json.str "c"]) Json.null rfl (by decide)

/-- Identifier preservation of the computed-property update. -/
theorem setField_id (it : LineItem) (f : ItemField) (v : f.valType) :
    (setField it f v).id = it.id := by
  cases f <;> rfl

/-- The updated field carries the new value. -/
theorem getFieldVal_setField_same (it : LineItem) (f : ItemField) (v : f.valType) :
    getFieldVal (setField it f v) f = v := by
  cases f <;> rfl

/-- Fields other than the updated one are unchanged. -/
theorem getFieldVal_setField_other (it : LineItem) (f g : ItemField)
    (v : f.valType) (h : g ≠ f) :
    getFieldVal (setField it f v) g = getFieldVal it g := by
  cases f <;> cases g <;> first
    | rfl
    | exact absurd rfl h

/-- C8: updateLineItem preserves the length and order of the sequence, leaves
every item whose identifier differs from the given one untouched, and on
matching items changes exactly the named field, preserving the identifier and
the other fields. -/
theorem claim_updateLineItem (prev : List LineItem) (i : String)
    (f : ItemField) (v : f.valType) :
    (updateLineItem i f v prev).length = prev.length ∧
    (∀ (k : ℕ) (old : LineItem), prev[k]? = some old → old.id ≠ i →
      (updateLineItem i f v prev)[k]? = some old) ∧
    (∀ (k : ℕ) (old : LineItem), prev[k]? = some old → old.id = i →
      ∃ new, (updateLineItem i f v prev)[k]? = some new ∧
        new.id = old.id ∧ getFieldVal new f = v ∧
        ∀ g : ItemField, g ≠ f → getFieldVal new g = getFieldVal old g) := by
  refine ⟨by simp [updateLineItem], ?_, ?_⟩
  · intro k old hk hid
    unfold updateLineItem
    rw [List.getElem?_map, hk]
    simp [hid]
  · intro k old hk hid
    refine ⟨setField old f v, ?_, setField_id old f v,
      getFieldVal_setField_same old f v,
      fun g hg => getFieldVal_setField_other old f g v hg⟩
    unfold updateLineItem
    rw [List.getElem?_map, hk]
    simp [hid]

/-- Witness for C8: updating the quantity of the second of two items leaves
the first untouched and changes exactly the quantity of the second. -/
theorem claim_updateLineItem_witness :
    (updateLineItem "b" ItemField.quantity (5 : ℚ)
        [{ id := "a", description := "d", quantity := 1, unitPrice := 2 },
         { id := "b", description := "e", quantity := 3, unitPrice := 4 }])[0]? =
      some { id := "a", description := "d", quantity := 1, unitPrice := 2 } ∧
    ∃ new, (updateLineItem "b" ItemField.quantity (5 : ℚ)
        [{ id := "a", description := "d", quantity := 1, unitPrice := 2 },
         { id := "b", description := "e", quantity := 3, unitPrice := 4 }])[1]? =
      some new ∧ new.id = "b" ∧ getFieldVal new ItemField.quantity = 5 ∧
      ∀ g : ItemField, g ≠ ItemField.quantity →
        getFieldVal new g =
          getFieldVal { id := "b", description := "e", quantity := 3, unitPrice := 4 } g := by
  constructor
  · exact (claim_updateLineItem
      [{ id := "a", description := "d", quantity := 1, unitPrice := 2 },
       { id := "b", description := "e", quantity := 3, unitPrice := 4 }]
      "b" ItemField.quantity 5).2.1 0
      { id := "a", description := "d", quantity := 1, unitPrice := 2 } rfl (by decide)
  · obtain ⟨new, h⟩ := (claim_updateLineItem
      [{ id := "a", description := "d", quantity := 1, unitPrice := 2 },
       { id := "b", description := "e", quantity := 3, unitPrice := 4 }]
      "b" ItemField.quantity 5).2.2 1
      { id := "b", description := "e", quantity := 3, unitPrice := 4 } rfl rfl
    exact ⟨new, h.1, h.2.1, h.2.2.1, h.2.2.2⟩

/-- C10: with an empty prompt the AI handler returns before any request: no
request is issued, the line items are untouched, and isLoading is never set. -/
theorem claim_emptyPrompt (prev : List LineItem) (res : AIResult)
    (genId : ℕ → String) :
    handleGenerateWithAI "" prev res genId =
      { requested := false, lineItems := prev, alerted := false,
        sawLoading := false, isLoading := false } := rfl

/-- Counterexample to C3: a response that parses to an object without the
lineItems member is a schema violation, yet the handler raises no user-visible
error (the guard on result.lineItems simply skips), so the claim that every
failure reports a user-visible error is false on the code. -/
theorem claim_aiFailure_counterexample :
    (handleGenerateWithAI "make an invoice" []
        (AIResult.parsed (Json.obj [])) (fun _ => "g")).requested = true ∧
    (handleGenerateWithAI "make an invoice" []
        (AIResult.parsed (Json.obj [])) (fun _ => "g")).alerted = false ∧
    (handleGenerateWithAI "make an invoice" []
        (AIResult.parsed (Json.obj [])) (fun _ => "g")).lineItems = [] :=
  ⟨rfl, rfl, rfl⟩

/-- C3 amended: on a thrown failure (network error, unparseable response, a
response parsing to null, or a truthy non-array lineItems member) the handler
reports a user-visible error; on a response parsing to a non-null value whose
lineItems member is absent or falsy it reports nothing; in every such case the
draft line items are unchanged and isLoading is false on completion. -/
theorem claim_aiFailure_amended (prompt : String) (prev : List LineItem)
    (genId : ℕ → String) (j : Json) (hp : prompt ≠ "") :
    (handleGenerateWithAI prompt prev AIResult.error genId =
      { requested := true, lineItems := prev, alerted := true,
        sawLoading := true, isLoading := false }) ∧
    (j.isNull = true →
      handleGenerateWithAI prompt prev (AIResult.parsed j) genId =
        { requested := true, lineItems := prev, alerted := true,
          sawLoading := true, isLoading := false }) ∧
    (j.isNull = false → j.getField "lineItems" = none →
      handleGenerateWithAI prompt prev (AIResult.parsed j) genId =
        { requested := true, lineItems := prev, alerted := false,
          sawLoading := true, isLoading := false }) ∧
    (∀ v, j.isNull = false → j.getField "lineItems" = some v → v.truthy = false →
      handleGenerateWithAI prompt prev (AIResult.parsed j) genId =
        { requested := true, lineItems := prev, alerted := false,
          sawLoading := true, isLoading := false }) ∧
    (∀ v, j.isNull = false → j.getField "lineItems" = some v → v.truthy = true →
      (∀ xs, v ≠ Json.arr xs) →
      handleGenerateWithAI prompt prev (AIResult.parsed j) genId =
        { requested := true, lineItems := prev, alerted := true,
          sawLoading := true, isLoading := false }) := by
  refine ⟨?_, ?_, ?_, ?_, ?_⟩
  · unfold handleGenerateWithAI
    rw [if_neg hp]
  · intro hn
    unfold handleGenerateWithAI
    rw [if_neg hp]
    simp only [hn, if_true]
  · intro hn hf
    unfold handleGenerateWithAI
    rw [if_neg hp]
    simp only [hn, if_false, hf, Bool.false_eq_true]
  · intro v hn hf ht
    unfold handleGenerateWithAI
    rw [if_neg hp]
    simp only [hn, if_false, hf, ht, Bool.false_eq_true]
  · intro v hn hf ht hv
    unfold handleGenerateWithAI
    rw [if_neg hp]
    simp only [hn, if_false, hf, ht, if_true, Bool.false_eq_true]

/-- Witness for C3 amended: the network-error case and the missing-field case
at concrete inputs. -/
theorem claim_aiFailure_amended_witness :
    handleGenerateWithAI "p" [] AIResult.error (fun _ => "g") =
      { requested := true, lineItems := [], alerted := true,
        sawLoading := true, isLoading := false } ∧
    handleGenerateWithAI "p" [] (AIResult.parsed (Json.obj [])) (fun _ => "g") =
      { requested := true, lineItems := [], alerted := false,
        sawLoading := true, isLoading := false } :=
  ⟨(claim_aiFailure_amended "p" [] (fun _ => "g") (Json.obj []) (by decide)).1,
   (claim_aiFailure_amended "p" [] (fun _ => "g") (Json.obj []) (by decide)).2.2.1
     rfl rfl⟩

/-- Spread of an encoded schema-conforming record recovers its fields. -/
theorem mkItem_encode (i : String) (r : RawItem) :
    mkItem i (encodeItem r) =
      { id := i, description := r.description, quantity := r.quantity,
        unitPrice := r.unitPrice } := rfl

/-- Length of the mapped items. -/
theorem mapWithIds_length (genId : ℕ → String) :
    ∀ (n : ℕ) (xs : List Json), (mapWithIds genId n xs).length = xs.length := by
  intro n xs
  induction xs generalizing n with
  | nil => rfl
  | cons x xs ih => simp [mapWithIds, ih]

/-- Pointwise description of the mapped items. -/
theorem mapWithIds_getElem (genId : ℕ → String) :
    ∀ (xs : List Json) (n k : ℕ),
      (mapWithIds genId n xs)[k]? =
        Option.map (fun x => mkItem (genId (n + k)) x) xs[k]? := by
  intro xs
  induction xs with
  | nil => intro n k; rfl
  | cons x xs ih =>
      intro n k
      cases k with
      | zero => simp [mapWithIds]
      | succ k =>
          rw [show mapWithIds genId n (x :: xs) =
                mkItem (genId n) x :: mapWithIds genId (n + 1) xs from rfl]
          rw [List.getElem?_cons_succ, List.getElem?_cons_succ, ih (n + 1) k]
          have hnk : n + 1 + k = n + (k + 1) := by omega
          rw [hnk]

/-- Reduction of the handler on a parsed object whose lineItems member is an
array. -/
theorem handleGenerateWithAI_arr (prompt : String) (prev : List LineItem)
    (xs : List Json) (genId : ℕ → String) (hp : prompt ≠ "") :
    handleGenerateWithAI prompt prev
        (AIResult.parsed (Json.obj [("lineItems", Json.arr xs)])) genId =
      { requested := true, lineItems := mapWithIds genId 0 xs,
        alerted := false, sawLoading := true, isLoading := false } := by
  unfold handleGenerateWithAI
  rw [if_neg hp]
  rfl

/-- Identifiers of the mapped items are the generated identifiers in call
order. -/
theorem ids_mapWithIds (genId : ℕ → String) :
    ∀ (xs : List Json) (n : ℕ),
      ids (mapWithIds genId n xs) = (List.range' n xs.length).map genId := by
  intro xs
  induction xs with
  | nil => intro n; rfl
  | cons x xs ih =>
      intro n
      have htail := ih (n + 1)
      simp only [ids, List.map_cons] at htail ⊢
      rw [show mapWithIds genId n (x :: xs) =
            mkItem (genId n) x :: mapWithIds genId (n + 1) xs from rfl]
      simp only [List.map_cons, List.length_cons, List.range'_succ]
      exact congrArg (fun t => (mkItem (genId n) x).id :: t) htail

/-- C4: on a successful response parsing to an object whose lineItems member
is an array of schema-conforming records, the handler replaces the draft line
items with exactly those records in order, each given the freshly generated
identifier of its call, with no error and isLoading false; when the generated
identifiers are pairwise distinct, so are the identifiers of the new
sequence. -/
theorem claim_aiSuccess (prompt : String) (prev : List LineItem)
    (rs : List RawItem) (genId : ℕ → String) (hp : prompt ≠ "") :
    (handleGenerateWithAI prompt prev
        (AIResult.parsed (Json.obj [("lineItems", Json.arr (rs.map encodeItem))]))
        genId =
      { requested := true, lineItems := mapWithIds genId 0 (rs.map encodeItem),
        alerted := false, sawLoading := true, isLoading := false }) ∧
    (mapWithIds genId 0 (rs.map encodeItem)).length = rs.length ∧
    (∀ (k : ℕ) (r : RawItem), rs[k]? = some r →
      (mapWithIds genId 0 (rs.map encodeItem))[k]? =
        some { id := genId k, description := r.description,
               quantity := r.quantity, unitPrice := r.unitPrice }) ∧
    (((List.range rs.length).map genId).Nodup →
      (ids (mapWithIds genId 0 (rs.map encodeItem))).Nodup) := by
  refine ⟨handleGenerateWithAI_arr prompt prev (rs.map encodeItem) genId hp,
    by rw [mapWithIds_length, List.length_map], ?_, ?_⟩
  · intro k r hk
    rw [mapWithIds_getElem genId (rs.map encodeItem) 0 k,
      List.getElem?_map, hk]
    simp [mkItem_encode]
  · intro hinj
    rw [ids_mapWithIds genId (rs.map encodeItem) 0, List.length_map]
    rwa [List.range_eq_range'] at hinj

/-- Witness for C4: the specification example with two generated records and
distinct generated identifiers. -/
theorem claim_aiSuccess_witness :
    handleGenerateWithAI "website work" []
        (AIResult.parsed (Json.obj [("lineItems", Json.arr
          (([{ description := "Design", quantity := 10, unitPrice := 50 },
             { description := "Hosting", quantity := 1, unitPrice := 120 }] :
             List RawItem).map encodeItem))]))
        (fun n => String.append "g" (toString n)) =
      { requested := true,
        lineItems := mapWithIds (fun n => String.append "g" (toString n)) 0
          (([{ description := "Design", quantity := 10, unitPrice := 50 },
             { description := "Hosting", quantity := 1, unitPrice := 120 }] :
             List RawItem).map encodeItem),
        alerted := false, sawLoading := true, isLoading := false } ∧
    (ids (mapWithIds (fun n => String.append "g" (toString n)) 0
      (([{ description := "Design", quantity := 10, unitPrice := 50 },
         { description := "Hosting", quantity := 1, unitPrice := 120 }] :
         List RawItem).map encodeItem))).Nodup :=
  ⟨(claim_aiSuccess "website work" []
      [{ description := "Design", quantity := 10, unitPrice := 50 },
       { description := "Hosting", quantity := 1, unitPrice := 120 }]
      (fun n => String.append "g" (toString n)) (by decide)).1,
   (claim_aiSuccess "website work" []
      [{ description := "Design", quantity := 10, unitPrice := 50 },
       { description := "Hosting", quantity := 1, unitPrice := 120 }]
      (fun n => String.append "g" (toString n)) (by decide)).2.2.2
      (by decide)⟩

/-- Field updates never change identifiers. -/
theorem ids_updateLineItem (i : String) (f : ItemField) (v : f.valType)
    (s : List LineItem) : ids (updateLineItem i f v s) = ids s := by
  unfold updateLineItem ids
  rw [List.map_map]
  apply List.map_congr_left
  intro item _
  by_cases h : item.id = i
  · simp [Function.comp, h, setField_id]
  · simp [Function.comp, h]

/-- One fresh draft operation preserves distinctness of identifiers. -/
theorem freshOK_nodup (s : List LineItem) (op : DraftOp)
    (hs : (ids s).Nodup) (hf : freshOK s op = true) :
    (ids (applyOp s op)).Nodup := by
  cases op with
  | add fid =>
      have hmem : fid ∉ ids s := of_decide_eq_true hf
      show (ids (addLineItem fid s)).Nodup
      unfold addLineItem ids
      rw [List.map_append, List.nodup_append]
      refine ⟨hs, by simp, ?_⟩
      intro a ha
      simp only [List.map_cons, List.map_nil, List.mem_singleton]
      intro hrfl
      exact hmem (hrfl ▸ ha)
  | remove i =>
      show (ids (removeLineItem i s)).Nodup
      unfold removeLineItem ids
      exact List.Nodup.sublist ((List.filter_sublist s).map LineItem.id) hs
  | update i f v =>
      show (ids (updateLineItem i f v s)).Nodup
      rw [ids_updateLineItem]
      exact hs
  | gen prompt res genId => exact of_decide_eq_true hf

/-- A fresh run of draft operations preserves distinctness of identifiers. -/
theorem freshRun_nodup :
    ∀ (ops : List DraftOp) (s : List LineItem), (ids s).Nodup →
      freshRun s ops = true → (ids (runOps s ops)).Nodup := by
  intro ops
  induction ops with
  | nil => intro s hs _; exact hs
  | cons op ops ih =>
      intro s hs hf
      rw [show freshRun s (op :: ops) =
            (freshOK s op && freshRun (applyOp s op) ops) from rfl] at hf
      rw [Bool.and_eq_true] at hf
      exact ih (applyOp s op) (freshOK_nodup s op hs hf.1) hf.2

/-- C9: any draft produced from the empty draft by a sequence of addLineItem,
removeLineItem, updateLineItem and generateWithAI operations whose generated
identifiers are fresh has pairwise distinct line item identifiers, so the
document that a successful saveDocument appends carries pairwise distinct
identifiers. -/
theorem claim_savedIdsNodup (ops : List DraftOp) (cid : String)
    (ty : DocumentType) (docs : List Document) (view fid now : String)
    (hfresh : freshRun [] ops = true) (hc : cid ≠ "")
    (hne : runOps [] ops ≠ []) :
    ∃ d : Document,
      (saveDocument cid ty (runOps [] ops) docs view fid now).documents =
        docs ++ [d] ∧
      d.lineItems = runOps [] ops ∧
      (ids d.lineItems).Nodup := by
  refine ⟨{ id := fid, customerId := cid, type := ty, date := now,
            lineItems := runOps [] ops }, ?_, rfl, ?_⟩
  · unfold saveDocument
    simp [hc, hne]
  · exact freshRun_nodup ops [] (by simp [ids]) hfresh

/-- Witness for C9: a concrete run using all four operation kinds, ending in
a successful save whose document has pairwise distinct item identifiers. -/
theorem claim_savedIdsNodup_witness :
    ∃ d : Document,
      (saveDocument "c1" DocumentType.Quotation
          (runOps [] [DraftOp.add "a", DraftOp.add "b",
            DraftOp.update "a" ItemField.quantity (2 : ℚ), DraftOp.remove "b",
            DraftOp.add "c"])
          [] "creator" "9" "t").documents = [] ++ [d] ∧
      d.lineItems = runOps [] [DraftOp.add "a", DraftOp.add "b",
        DraftOp.update "a" ItemField.quantity (2 : ℚ), DraftOp.remove "b",
        DraftOp.add "c"] ∧
      (ids d.lineItems).Nodup :=
  claim_savedIdsNodup
    [DraftOp.add "a", DraftOp.add "b",
     DraftOp.update "a" ItemField.quantity (2 : ℚ), DraftOp.remove "b",
     DraftOp.add "c"]
    "c1" DocumentType.Quotation [] "creator" "9" "t"
    (by decide) (by decide) (by decide)
